import Mathlib

/-!
Verification of the trading-simulator MCP bridge.

This development is a shallow embedding of the two core components of the
repository:

* the authenticated API client (`src/api-client.ts`): chain detection,
  request construction and response handling, the per-endpoint path and
  query-string builders, the known-token lookup table, and the trade
  payload construction; and
* the tool dispatcher (`src/index.ts`): the static tool catalog and the
  `CallToolRequest` handler with its per-tool argument handling and its
  outer error-to-envelope conversion.

JavaScript runtime values that flow through the untyped argument bag are
modelled by a small `Json` inductive together with the JavaScript
truthiness and string-coercion rules the source relies on.  `JSON.parse`
is a platform builtin, not repository code; it is modelled by an
executable recursive-descent parser for the JSON fragment the source
exchanges (strings, integer numerals, booleans, null, arrays, objects).
Percent-encoding of query-string values (`URLSearchParams` /
`encodeURIComponent`) is not modelled: query strings are rendered as
plain `key=value` pairs, which is faithful for every property stated
here (all of which concern which keys appear and which values were
chosen, not the escaping of individual characters).

The HTTP world is modelled by an `Option HttpResponse` oracle: `none` is
a transport-level failure of `fetch`, `some r` is the response the
remote returns for the (single) request a call issues.
-/

namespace TradingSim

/-- JSON / JavaScript runtime values (numbers restricted to integers;
the source never relies on fractional values in the properties below). -/
inductive Json where
  | null : Json
  | bool : Bool → Json
  | num : Int → Json
  | str : String → Json
  | arr : List Json → Json
  | obj : List (String × Json) → Json
deriving Repr

/-- JavaScript truthiness of a JSON value (`if (v)`):
`null`, `false`, `0` and `""` are falsy; arrays and objects are truthy. -/
def jsTruthy : Json → Bool
  | .null => false
  | .bool b => b
  | .num n => n != 0
  | .str s => s != ""
  | .arr _ => true
  | .obj _ => true

/-- Truthiness of an optional JSON value: an absent property
(`undefined`) is falsy. -/
def jsTruthyOpt : Option Json → Bool
  | none => false
  | some v => jsTruthy v

mutual

/-- JavaScript `String(v)` coercion of a JSON value, as used by template
interpolation, `toString()` calls and `RegExp.test`. -/
def jsToString : Json → String
  | .null => "null"
  | .bool b => if b then "true" else "false"
  | .num n => toString n
  | .str s => s
  | .arr xs => jsToStringList xs
  | .obj _ => "[object Object]"

/-- Array-to-string coercion: elements joined with commas. -/
def jsToStringList : List Json → String
  | [] => ""
  | [x] => jsToString x
  | x :: y :: xs => jsToString x ++ "," ++ jsToStringList (y :: xs)

end

/-- Property access `v.k` on a JSON value: defined only on objects
(first binding wins), `undefined` (`none`) otherwise — which also models
the optional-chaining access `v?.k` on non-objects. -/
def jsGet (v : Json) (k : String) : Option Json :=
  match v with
  | .obj kvs => kvs.lookup k
  | _ => none

/-- The JavaScript `a || b` chain on possibly-absent values: `a` if it
is present and truthy, otherwise `b`. -/
def jsOr (a b : Option Json) : Option Json :=
  match a with
  | some v => if jsTruthy v then some v else b
  | none => b

/-- Property update `o.k = v` on a JSON object: replaces the first
binding of `k` in place, or appends a new binding (JavaScript insertion
order). -/
def setKey (kvs : List (String × Json)) (k : String) (v : Json) :
    List (String × Json) :=
  match kvs with
  | [] => [(k, v)]
  | (k', v') :: rest =>
      if k' = k then (k', v) :: rest else (k', v') :: setKey rest k v

/-! ### A model of `JSON.parse`

`JSON.parse` is a platform builtin.  The model below is an executable
recursive-descent parser over the character list, fuelled for
termination (fuel `s.length + 1` always suffices, since every recursive
step consumes at least one character).  It accepts strings, integer
numerals, `true`/`false`/`null`, arrays and objects, insists on
end-of-input after the value, and rejects everything else — in
particular any text that is not JSON yields `none` (the builtin would
throw a `SyntaxError`). -/

/-- JSON whitespace. -/
def isJsonWs (c : Char) : Bool :=
  c = ' ' || c = '\t' || c = '\n' || c = '\r'

/-- Skip leading JSON whitespace. -/
def skipWs : List Char → List Char
  | [] => []
  | c :: cs => if isJsonWs c then skipWs cs else c :: cs

/-- Parse the body of a JSON string literal (after the opening quote),
handling the standard escape sequences (`\u` escapes are not modelled);
returns the decoded string and the rest of the input. -/
def parseStringBody : List Char → Option (String × List Char)
  | [] => none
  | '"' :: rest => some ("", rest)
  | '\\' :: e :: rest =>
      match (match e with
        | '"' => some '"'
        | '\\' => some '\\'
        | '/' => some '/'
        | 'n' => some '\n'
        | 't' => some '\t'
        | 'r' => some '\r'
        | 'b' => some (Char.ofNat 8)
        | 'f' => some (Char.ofNat 12)
        | _ => none) with
      | none => none
      | some c =>
          (parseStringBody rest).map (fun r => (String.singleton c ++ r.1, r.2))
  | c :: rest =>
      if c.toNat < 32 then none
      else (parseStringBody rest).map (fun r => (String.singleton c ++ r.1, r.2))

/-- Parse a run of decimal digits into a natural number. -/
def parseDigits (acc : Nat) : List Char → Option (Nat × List Char)
  | [] => some (acc, [])
  | c :: cs =>
      if c.isDigit then parseDigits (acc * 10 + (c.toNat - 48)) cs
      else some (acc, c :: cs)

/-- Does the input start with another digit (used to require at least
one digit in a numeral)? -/
def startsWithDigit : List Char → Bool
  | [] => false
  | c :: _ => c.isDigit

/-- Parser modes: a single JSON value, the members of an object after
its `{`, or the elements of an array after its `[`. -/
inductive ParseMode where
  | value : ParseMode
  | members : ParseMode
  | elements : ParseMode

/-- Parser intermediate results, one shape per mode. -/
inductive ParseOut where
  | val : Json → ParseOut
  | mems : List (String × Json) → ParseOut
  | elems : List Json → ParseOut

/-- The recursive core of the `JSON.parse` model, structurally fuelled
(every recursive call burns one unit; `2 * length + 2` always suffices
since at most two nested calls happen per character consumed).
Fractional and exponent numerals are not modelled. -/
def parseRun : Nat → ParseMode → List Char → Option (ParseOut × List Char)
  | 0, _, _ => none
  | fuel + 1, .value, input =>
      match input with
      | [] => none
      | '"' :: rest => (parseStringBody rest).map (fun r => (.val (.str r.1), r.2))
      | '{' :: rest =>
          match skipWs rest with
          | '}' :: rest' => some (.val (.obj []), rest')
          | rest' =>
              match parseRun fuel .members rest' with
              | some (.mems kvs, tail) => some (.val (.obj kvs), tail)
              | _ => none
      | '[' :: rest =>
          match skipWs rest with
          | ']' :: rest' => some (.val (.arr []), rest')
          | rest' =>
              match parseRun fuel .elements rest' with
              | some (.elems xs, tail) => some (.val (.arr xs), tail)
              | _ => none
      | 't' :: 'r' :: 'u' :: 'e' :: rest => some (.val (.bool true), rest)
      | 'f' :: 'a' :: 'l' :: 's' :: 'e' :: rest => some (.val (.bool false), rest)
      | 'n' :: 'u' :: 'l' :: 'l' :: rest => some (.val .null, rest)
      | '-' :: rest =>
          if startsWithDigit rest then
            (parseDigits 0 rest).map (fun r => (.val (.num (-(r.1 : Int))), r.2))
          else none
      | c :: rest =>
          if c.isDigit then
            (parseDigits 0 (c :: rest)).map (fun r => (.val (.num (r.1 : Int)), r.2))
          else none
  | fuel + 1, .members, input =>
      match skipWs input with
      | '"' :: rest =>
          match parseStringBody rest with
          | none => none
          | some (k, rest') =>
              match skipWs rest' with
              | ':' :: rest'' =>
                  match parseRun fuel .value (skipWs rest'') with
                  | some (.val v, rest''') =>
                      match skipWs rest''' with
                      | '}' :: tail => some (.mems [(k, v)], tail)
                      | ',' :: tail =>
                          match parseRun fuel .members tail with
                          | some (.mems kvs, t) => some (.mems ((k, v) :: kvs), t)
                          | _ => none
                      | _ => none
                  | _ => none
              | _ => none
      | _ => none
  | fuel + 1, .elements, input =>
      match parseRun fuel .value (skipWs input) with
      | some (.val v, rest) =>
          match skipWs rest with
          | ']' :: tail => some (.elems [v], tail)
          | ',' :: tail =>
              match parseRun fuel .elements tail with
              | some (.elems xs, t) => some (.elems (v :: xs), t)
              | _ => none
          | _ => none
      | _ => none

/-- The model of `JSON.parse`: parse one value, require only whitespace
after it; `none` models the builtin throwing a `SyntaxError`. -/
def jsonParse (s : String) : Option Json :=
  match parseRun (2 * s.length + 2) .value (skipWs s.toList) with
  | some (.val v, rest) => if skipWs rest = [] then some v else none
  | _ => none

/-! ### A model of `JSON.stringify(v, null, 2)`

The dispatcher serializes every successful client response with
`JSON.stringify(response, null, 2)` (two-space pretty printing). -/

/-- Lower-case hexadecimal digit for a value below 16. -/
def hexDigitChar (n : Nat) : Char :=
  if n < 10 then Char.ofNat (48 + n) else Char.ofNat (87 + n)

/-- The `JSON.stringify` escaping of one character inside a string literal. -/
def escapeJsonChar (c : Char) : String :=
  if c = '"' then "\\\""
  else if c = '\\' then "\\\\"
  else if c = '\n' then "\\n"
  else if c = '\t' then "\\t"
  else if c = '\r' then "\\r"
  else if c = Char.ofNat 8 then "\\b"
  else if c = Char.ofNat 12 then "\\f"
  else if c.toNat < 32 then
    "\\u00" ++ String.singleton (hexDigitChar (c.toNat / 16)) ++
      String.singleton (hexDigitChar (c.toNat % 16))
  else String.singleton c

/-- A JSON string literal: quotes around the escaped characters. -/
def quoteJsonString (s : String) : String :=
  "\"" ++ String.join (s.toList.map escapeJsonChar) ++ "\""

mutual

/-- Model of `JSON.stringify(v, null, 2)` with `gap` the indentation accumulated
at the current depth. -/
def stringifyPretty (gap : String) : Json → String
  | .null => "null"
  | .bool b => if b then "true" else "false"
  | .num n => toString n
  | .str s => quoteJsonString s
  | .arr [] => "[]"
  | .arr (x :: xs) =>
      "[\n" ++
        String.intercalate ",\n"
          (stringifyPrettyList (gap ++ "  ") (x :: xs)) ++
        "\n" ++ gap ++ "]"
  | .obj [] => "\x7b\x7d"
  | .obj (kv :: kvs) =>
      "\x7b\n" ++
        String.intercalate ",\n"
          (stringifyPrettyMembers (gap ++ "  ") (kv :: kvs)) ++
        "\n" ++ gap ++ "\x7d"

/-- The pretty-printed, indented lines of an array's elements. -/
def stringifyPrettyList (gap : String) : List Json → List String
  | [] => []
  | x :: xs => (gap ++ stringifyPretty gap x) :: stringifyPrettyList gap xs

/-- The pretty-printed, indented lines of an object's members. -/
def stringifyPrettyMembers (gap : String) : List (String × Json) → List String
  | [] => []
  | (k, v) :: kvs =>
      (gap ++ quoteJsonString k ++ ": " ++ stringifyPretty gap v) ::
        stringifyPrettyMembers gap kvs

end

/-- Entry point of the serialization model: `JSON.stringify(v, null, 2)`. -/
def stringify2 (v : Json) : String := stringifyPretty "" v

/-! ### Chain detection and the known-token table (`src/types.ts`,
`src/api-client.ts`) -/

/-- The `BlockchainType` enum of `src/types.ts`. -/
inductive BlockchainType where
  | svm : BlockchainType
  | evm : BlockchainType
deriving DecidableEq, Repr

/-- The string value carried by each `BlockchainType` enum member. -/
def BlockchainType.toStr : BlockchainType → String
  | .svm => "svm"
  | .evm => "evm"

/-- One hexadecimal character, as in the character class of the source's
`/^0x[a-fA-F0-9]{40}$/`. -/
def isHexChar (c : Char) : Bool :=
  ('a' ≤ c && c ≤ 'f') || ('A' ≤ c && c ≤ 'F') || ('0' ≤ c && c ≤ '9')

/-- The test `/^0x[a-fA-F0-9]{40}$/.test(token)` over the token's
characters: a literal `0x` followed by exactly forty hex characters. -/
def evmAddressTest (cs : List Char) : Bool :=
  match cs with
  | c1 :: c2 :: rest =>
      c1 == '0' && c2 == 'x' && rest.length == 40 && rest.all isHexChar
  | _ => false

/-- Model of `TradingSimulatorClient.detectChain`: EVM when the address matches
the `0x` + 40-hex-character pattern, SVM otherwise (a fallback, not a
positive validation of Solana addresses). -/
def detectChain (token : String) : BlockchainType :=
  if evmAddressTest token.toList then .evm else .svm

/-- The `COMMON_TOKENS` table of `src/types.ts`, as nested
(specific-chain key, (symbol, address) list) association lists. -/
structure CommonTokens where
  svmTokens : List (String × List (String × String))
  evmTokens : List (String × List (String × String))

/-- The concrete `COMMON_TOKENS` value of `src/types.ts`. -/
def COMMON_TOKENS : CommonTokens where
  svmTokens :=
    [("SVM",
      [("USDC", "EPjFWdd5AufqSSqeM2qN1xzybapC8G4wEGGkZwyTDt1v"),
       ("SOL", "So11111111111111111111111111111111111111112")])]
  evmTokens :=
    [("ETH",
      [("USDC", "0xA0b86991c6218b36c1d19D4a2e9Eb0cE3606eB48"),
       ("WETH", "0xC02aaA39b223FE8D0A0e5C4F27eAD9083C756Cc2")]),
     ("BASE",
      [("USDC", "0x833589fCD6eDb6E08f4c7C32D4f71b54bdA02913"),
       ("ETH", "0x4200000000000000000000000000000000000006")])]

/-- JavaScript `String.prototype.toLowerCase` (ASCII, which covers every
address in the table). -/
def jsToLowerCase (s : String) : String := String.mk (s.toList.map Char.toLower)

/-- Scan one chain's token list for an exact address match (SVM side). -/
def findExactAddress (token : String) :
    List (String × String) → Bool
  | [] => false
  | (_, address) :: rest =>
      if address = token then true else findExactAddress token rest

/-- Scan one chain's token list for a case-insensitive address match
(EVM side). -/
def findLowerAddress (token : String) :
    List (String × String) → Bool
  | [] => false
  | (_, address) :: rest =>
      if jsToLowerCase address = jsToLowerCase token then true
      else findLowerAddress token rest

/-- Scan the SVM half of the table. -/
def findSvmChain (token : String) :
    List (String × List (String × String)) → Option (BlockchainType × String)
  | [] => none
  | (_, tokens) :: rest =>
      if findExactAddress token tokens then some (.svm, "svm")
      else findSvmChain token rest

/-- Scan the EVM half of the table, returning the specific-chain key of
the matching group (the source casts the object key, so the value
returned is the key string itself, e.g. `"ETH"`). -/
def findEvmChain (token : String) :
    List (String × List (String × String)) → Option (BlockchainType × String)
  | [] => none
  | (specificChain, tokens) :: rest =>
      if findLowerAddress token tokens then some (.evm, specificChain)
      else findEvmChain token rest

/-- Model of `TradingSimulatorClient.findTokenChainInfo`: look the token address
up in `COMMON_TOKENS` — SVM entries by exact match first, then EVM
entries case-insensitively — returning its blockchain type and specific
chain, or `none`. -/
def findTokenChainInfo (token : String) : Option (BlockchainType × String) :=
  match findSvmChain token COMMON_TOKENS.svmTokens with
  | some r => some r
  | none => findEvmChain token COMMON_TOKENS.evmTokens

/-! ### The authenticated API client (`src/api-client.ts`) -/

/-- The state a `TradingSimulatorClient` holds after construction. -/
structure TradingSimulatorClient where
  apiKey : String
  baseUrl : String
  debug : Bool
deriving Repr

/-- JavaScript string truthiness for optional strings (`s || t` chains):
absent and empty are falsy. -/
def strTruthy : Option String → Bool
  | none => false
  | some s => s != ""

/-- JavaScript `String.prototype.trim` (over the whitespace characters
that occur in practice). -/
def jsTrim (s : String) : String :=
  String.mk (((s.toList.dropWhile isJsonWs).reverse.dropWhile isJsonWs).reverse)

/-- Model of `apiKey || config.TRADING_SIM_API_KEY` followed by
`providedKey ? providedKey.trim() : ""`. -/
def resolveApiKey (apiKey : Option String) (configKey : String) : String :=
  let provided := if strTruthy apiKey then apiKey.getD "" else configKey
  if provided ≠ "" then jsTrim provided else ""

/-- Model of `baseUrl.endsWith("/") ? baseUrl.slice(0, -1) : baseUrl`. -/
def normalizeBaseUrl (baseUrl : String) : String :=
  match baseUrl.toList.getLast? with
  | some '/' => String.mk baseUrl.toList.dropLast
  | _ => baseUrl

/-- The `TradingSimulatorClient` constructor: resolves the key from the
explicit argument or the ambient configuration, trims it, logs an error
(returned as the second component) instead of throwing when it is empty,
and normalizes the base URL by stripping one trailing slash.  The
constructor is a total function: client creation always succeeds. -/
def mkClient (apiKey : Option String) (configKey : String)
    (baseUrl : String) (debug : Bool) : TradingSimulatorClient × Bool :=
  let key := resolveApiKey apiKey configKey
  (⟨key, normalizeBaseUrl baseUrl, debug⟩, key = "")

/-- Model of `generateHeaders`: bearer authorization, JSON content type, and the
fixed user agent, on every request. -/
def generateHeaders (c : TradingSimulatorClient) : List (String × String) :=
  [("Authorization", "Bearer " ++ c.apiKey),
   ("Content-Type", "application/json"),
   ("User-Agent", "TradingSimMCP/1.0")]

/-- A simulated HTTP response: numeric status plus the body text that
`await response.text()` reads. -/
structure HttpResponse where
  status : Nat
  text : String

/-- The `response.ok` predicate of the Fetch API: status in the 200–299 range. -/
def statusOk (status : Nat) : Bool := 200 ≤ status && status ≤ 299

/-- The outbound request the client hands to `fetch`: upper-cased
method, base URL plus path, generated headers, optional JSON body. -/
structure RequestEnvelope where
  method : String
  url : String
  headers : List (String × String)
  body : Option Json

/-- JavaScript `String.prototype.toUpperCase` (ASCII). -/
def jsToUpperCase (s : String) : String := String.mk (s.toList.map Char.toUpper)

/-- The error-message extraction of the non-success branch of `request`:
start from the generic status message; if the body is nonempty, parse it
as JSON and take `errorData.error?.message || errorData.message ||
errorMessage`, falling back to the raw body text when parsing fails. -/
def requestErrorMessage (status : Nat) (responseText : String) : String :=
  let fallbackMessage := "API request failed with status " ++ toString status
  if jsTrim responseText = "" then fallbackMessage
  else
    match jsonParse responseText with
    | some errorData =>
        match jsOr ((jsGet errorData "error").bind (fun e => jsGet e "message"))
            (jsGet errorData "message") with
        | some v => if jsTruthy v then jsToString v else fallbackMessage
        | none => fallbackMessage
    | none => responseText

/-- The transport-failure message thrown when `fetch` itself rejects. -/
def networkErrorMessage : String :=
  "Network error occurred while making API request."

/-- The parse-failure message of the success branch.  The suffix of the
source's `Failed to parse successful response: ${parseError}` is the JS
engine's `SyntaxError` text, abstracted here to its constant class name. -/
def parseFailureMessage : String :=
  "Failed to parse successful response: SyntaxError"

/-- Model of `TradingSimulatorClient.request`: build the request envelope, then
translate the simulated world (`none` = transport failure, `some r` =
the remote's response) into either the decoded JSON body or the thrown
error's message, exactly as the source's status/parse branches do. -/
def request (c : TradingSimulatorClient) (method path : String)
    (body : Option Json) (world : Option HttpResponse) :
    RequestEnvelope × Except String Json :=
  let req : RequestEnvelope :=
    { method := jsToUpperCase method
      url := c.baseUrl ++ path
      headers := generateHeaders c
      body := body }
  match world with
  | none => (req, .error networkErrorMessage)
  | some r =>
      if statusOk r.status then
        match jsonParse r.text with
        | some data => (req, .ok data)
        | none => (req, .error parseFailureMessage)
      else (req, .error (requestErrorMessage r.status r.text))

/-- Render accumulated query parameters as `key=value` pairs joined with
`&` (percent-encoding not modelled; see the module header). -/
def renderQuery (pairs : List (String × String)) : String :=
  String.intercalate "&" (pairs.map (fun p => p.1 ++ "=" ++ p.2))

/-- The interface `TradeHistoryParams` of `src/types.ts`; the values are the raw
JavaScript values the untyped argument bag delivered. -/
structure TradeHistoryParams where
  limit : Option Json := none
  offset : Option Json := none
  token : Option Json := none
  chain : Option Json := none

/-- The `URLSearchParams` built by `getTrades`: each of `limit`,
`offset`, `token`, `chain` is appended only when truthy, in that order. -/
def getTradesQueryPairs (options : TradeHistoryParams) :
    List (String × String) :=
  (if jsTruthyOpt options.limit then
    [("limit", jsToString (options.limit.getD .null))] else []) ++
  (if jsTruthyOpt options.offset then
    [("offset", jsToString (options.offset.getD .null))] else []) ++
  (if jsTruthyOpt options.token then
    [("token", jsToString (options.token.getD .null))] else []) ++
  (if jsTruthyOpt options.chain then
    [("chain", jsToString (options.chain.getD .null))] else [])

/-- The path `getTrades` requests: the query string (with its `?`) is
present exactly when an options object was passed at all. -/
def getTradesPath (options : Option TradeHistoryParams) : String :=
  match options with
  | none => "/api/account/trades"
  | some o => "/api/account/trades?" ++ renderQuery (getTradesQueryPairs o)

/-- Model of `TradingSimulatorClient.getTrades`. -/
def getTrades (c : TradingSimulatorClient) (options : Option TradeHistoryParams)
    (world : Option HttpResponse) : RequestEnvelope × Except String Json :=
  request c "GET" (getTradesPath options) none world

/-- Model of `TradingSimulatorClient.getBalances`. -/
def getBalances (c : TradingSimulatorClient) (world : Option HttpResponse) :
    RequestEnvelope × Except String Json :=
  request c "GET" "/api/account/balances" none world

/-- Model of `TradingSimulatorClient.getPortfolio`. -/
def getPortfolio (c : TradingSimulatorClient) (world : Option HttpResponse) :
    RequestEnvelope × Except String Json :=
  request c "GET" "/api/account/portfolio" none world

/-- The query `getPrice` and `getTokenInfo` build by concatenation:
`?token=…` always, `&chain=…` and `&specificChain=…` when truthy. -/
def priceQueryPairs (token : Json) (chain specificChain : Option Json) :
    List (String × String) :=
  [("token", jsToString token)] ++
  (if jsTruthyOpt chain then
    [("chain", jsToString (chain.getD .null))] else []) ++
  (if jsTruthyOpt specificChain then
    [("specificChain", jsToString (specificChain.getD .null))] else [])

/-- Model of `TradingSimulatorClient.getPrice`. -/
def getPrice (c : TradingSimulatorClient) (token : Json)
    (chain specificChain : Option Json) (world : Option HttpResponse) :
    RequestEnvelope × Except String Json :=
  request c "GET"
    ("/api/price?" ++ renderQuery (priceQueryPairs token chain specificChain))
    none world

/-- Model of `TradingSimulatorClient.getTokenInfo`. -/
def getTokenInfo (c : TradingSimulatorClient) (token : Json)
    (chain specificChain : Option Json) (world : Option HttpResponse) :
    RequestEnvelope × Except String Json :=
  request c "GET"
    ("/api/price/token-info?" ++
      renderQuery (priceQueryPairs token chain specificChain))
    none world

/-- The interface `PriceHistoryParams` of `src/types.ts`, values as delivered. -/
structure PriceHistoryParams where
  token : Json
  startTime : Option Json := none
  endTime : Option Json := none
  interval : Option Json := none
  chain : Option Json := none
  specificChain : Option Json := none

/-- The `URLSearchParams` built by `getPriceHistory`: `token` always,
then `startTime`, `endTime`, `interval`, `chain`, `specificChain` each
appended only when truthy, in that order. -/
def priceHistoryQueryPairs (params : PriceHistoryParams) :
    List (String × String) :=
  [("token", jsToString params.token)] ++
  (if jsTruthyOpt params.startTime then
    [("startTime", jsToString (params.startTime.getD .null))] else []) ++
  (if jsTruthyOpt params.endTime then
    [("endTime", jsToString (params.endTime.getD .null))] else []) ++
  (if jsTruthyOpt params.interval then
    [("interval", jsToString (params.interval.getD .null))] else []) ++
  (if jsTruthyOpt params.chain then
    [("chain", jsToString (params.chain.getD .null))] else []) ++
  (if jsTruthyOpt params.specificChain then
    [("specificChain", jsToString (params.specificChain.getD .null))] else [])

/-- Model of `TradingSimulatorClient.getPriceHistory`. -/
def getPriceHistory (c : TradingSimulatorClient) (params : PriceHistoryParams)
    (world : Option HttpResponse) : RequestEnvelope × Except String Json :=
  request c "GET"
    ("/api/price/history?" ++ renderQuery (priceHistoryQueryPairs params))
    none world

/-- The interface `TradeParams` of `src/types.ts`, values as delivered by the caller
(`price` is declared in the interface but never read by the client). -/
structure TradeParams where
  fromToken : Json
  toToken : Json
  amount : Json
  price : Option Json := none
  slippageTolerance : Option Json := none
  fromChain : Option Json := none
  toChain : Option Json := none
  fromSpecificChain : Option Json := none
  toSpecificChain : Option Json := none

/-- The request payload `executeTrade` builds: the three required
fields, then each optional field added when truthy, and finally
`fromChain` / `toChain` auto-filled from `detectChain` when the caller's
value was not truthy.  `findTokenChainInfo` is not consulted here. -/
def executeTradePayload (params : TradeParams) : Json :=
  let payload := [("fromToken", params.fromToken), ("toToken", params.toToken),
    ("amount", params.amount)]
  let payload := if jsTruthyOpt params.slippageTolerance then
    setKey payload "slippageTolerance" (params.slippageTolerance.getD .null)
    else payload
  let payload := if jsTruthyOpt params.fromChain then
    setKey payload "fromChain" (params.fromChain.getD .null) else payload
  let payload := if jsTruthyOpt params.toChain then
    setKey payload "toChain" (params.toChain.getD .null) else payload
  let payload := if jsTruthyOpt params.fromSpecificChain then
    setKey payload "fromSpecificChain" (params.fromSpecificChain.getD .null)
    else payload
  let payload := if jsTruthyOpt params.toSpecificChain then
    setKey payload "toSpecificChain" (params.toSpecificChain.getD .null)
    else payload
  let payload := if !jsTruthyOpt params.fromChain then
    setKey payload "fromChain"
      (.str (detectChain (jsToString params.fromToken)).toStr)
    else payload
  let payload := if !jsTruthyOpt params.toChain then
    setKey payload "toChain"
      (.str (detectChain (jsToString params.toToken)).toStr)
    else payload
  .obj payload

/-- Model of `TradingSimulatorClient.executeTrade`: POST the built payload. -/
def executeTrade (c : TradingSimulatorClient) (params : TradeParams)
    (world : Option HttpResponse) : RequestEnvelope × Except String Json :=
  request c "POST" "/api/trade/execute" (some (executeTradePayload params)) world

/-- Model of `TradingSimulatorClient.getQuote`. -/
def getQuote (c : TradingSimulatorClient) (fromToken toToken amount : Json)
    (world : Option HttpResponse) : RequestEnvelope × Except String Json :=
  request c "GET"
    ("/api/trade/quote?" ++
      renderQuery [("fromToken", jsToString fromToken),
        ("toToken", jsToString toToken), ("amount", jsToString amount)])
    none world

/-- Model of `TradingSimulatorClient.getCompetitionStatus`. -/
def getCompetitionStatus (c : TradingSimulatorClient)
    (world : Option HttpResponse) : RequestEnvelope × Except String Json :=
  request c "GET" "/api/competition/status" none world

/-- The path `getLeaderboard` requests: the `competitionId` query only
when a truthy id was passed. -/
def getLeaderboardPath (competitionId : Option String) : String :=
  if strTruthy competitionId then
    "/api/competition/leaderboard?competitionId=" ++ competitionId.getD ""
  else "/api/competition/leaderboard"

/-- Model of `TradingSimulatorClient.getLeaderboard(competitionId?)`. -/
def getLeaderboard (c : TradingSimulatorClient) (competitionId : Option String)
    (world : Option HttpResponse) : RequestEnvelope × Except String Json :=
  request c "GET" (getLeaderboardPath competitionId) none world

/-- Model of `TradingSimulatorClient.getCompetitionRules`. -/
def getCompetitionRules (c : TradingSimulatorClient)
    (world : Option HttpResponse) : RequestEnvelope × Except String Json :=
  request c "GET" "/api/competition/rules" none world

/-! ### The tool dispatcher (`src/index.ts`) -/

/-- A tool's entry in the static catalog: its name and the shape of its
JSON input schema (declared properties, required properties, and the
allowed values of enum-constrained properties). -/
structure ToolDescriptor where
  name : String
  properties : List String
  required : List String
  enums : List (String × List String)
deriving Repr

/-- The `specificChain` enum of the schemas. -/
def specificChainEnum : List String :=
  ["eth", "polygon", "bsc", "arbitrum", "base", "optimism", "avalanche",
   "linea", "svm"]

/-- The `chain` enum of the schemas. -/
def chainEnum : List String := ["svm", "evm"]

/-- The static `TRADING_SIM_TOOLS` catalog of `src/index.ts`. -/
def TRADING_SIM_TOOLS : List ToolDescriptor :=
  [{ name := "get_balances", properties := [], required := [], enums := [] },
   { name := "get_portfolio", properties := [], required := [], enums := [] },
   { name := "get_trades",
     properties := ["limit", "offset", "token", "chain"], required := [],
     enums := [("chain", chainEnum)] },
   { name := "get_price",
     properties := ["token", "chain", "specificChain"], required := ["token"],
     enums := [("chain", chainEnum), ("specificChain", specificChainEnum)] },
   { name := "get_token_info",
     properties := ["token", "chain", "specificChain"], required := ["token"],
     enums := [("chain", chainEnum), ("specificChain", specificChainEnum)] },
   { name := "get_price_history",
     properties := ["token", "startTime", "endTime", "interval", "chain",
       "specificChain"],
     required := ["token"],
     enums := [("interval", ["1m", "5m", "15m", "1h", "4h", "1d"]),
       ("chain", chainEnum), ("specificChain", specificChainEnum)] },
   { name := "execute_trade",
     properties := ["fromToken", "toToken", "amount", "slippageTolerance"],
     required := ["fromToken", "toToken", "amount"], enums := [] },
   { name := "get_quote",
     properties := ["fromToken", "toToken", "amount"],
     required := ["fromToken", "toToken", "amount"], enums := [] },
   { name := "get_competition_status", properties := [], required := [],
     enums := [] },
   { name := "get_leaderboard", properties := [], required := [],
     enums := [] }]

/-- The names of the catalog's tools, in order. -/
def toolNames : List String := TRADING_SIM_TOOLS.map ToolDescriptor.name

/-- The untyped argument bag of a tool call (`request.params.arguments`
is either absent or a string-keyed JSON object). -/
abbrev Args := List (String × Json)

/-- The MCP result envelope of one tool call: the source always returns
a single text content block, modelled by its text. -/
structure ResultEnvelope where
  isError : Bool
  text : String
deriving DecidableEq, Repr

/-- The success envelope: the client's decoded response serialized with
`JSON.stringify(response, null, 2)` and `isError: false`. -/
def successEnvelope (response : Json) : ResultEnvelope :=
  ⟨false, stringify2 response⟩

/-- Turn one client call's outcome into the case body's result: a
success envelope on resolution, a rethrown message on rejection — in
both cases the single HTTP request the client issued. -/
def outcomeResult (out : RequestEnvelope × Except String Json) :
    Except String ResultEnvelope × List RequestEnvelope :=
  match out.2 with
  | .ok j => (.ok (successEnvelope j), [out.1])
  | .error m => (.error m, [out.1])

/-- The body of the `CallToolRequestSchema` handler's `switch`, inside
its `try`: `.error m` models a thrown error reaching the outer `catch`,
paired with the requests issued before the throw.  The `default` branch
returns its "Unknown tool" envelope as an ordinary (non-thrown) error
result. -/
def callToolInner (c : TradingSimulatorClient) (world : Option HttpResponse)
    (name : String) (args : Option Args) :
    Except String ResultEnvelope × List RequestEnvelope :=
  if name = "get_balances" then
    outcomeResult (getBalances c world)
  else if name = "get_portfolio" then
    outcomeResult (getPortfolio c world)
  else if name = "get_trades" then
    match args with
    | none => (.error "Invalid arguments for get_trades", [])
    | some a =>
        outcomeResult (getTrades c
          (some ⟨a.lookup "limit", a.lookup "offset", a.lookup "token",
            a.lookup "chain"⟩) world)
  else if name = "get_price" then
    match args.bind (fun a => (a.lookup "token").map (fun t => (a, t))) with
    | none => (.error "Invalid arguments for get_price", [])
    | some (a, token) =>
        outcomeResult (getPrice c token (a.lookup "chain")
          (a.lookup "specificChain") world)
  else if name = "get_token_info" then
    match args.bind (fun a => (a.lookup "token").map (fun t => (a, t))) with
    | none => (.error "Invalid arguments for get_token_info", [])
    | some (a, token) =>
        outcomeResult (getTokenInfo c token (a.lookup "chain")
          (a.lookup "specificChain") world)
  else if name = "get_price_history" then
    match args.bind (fun a => (a.lookup "token").map (fun t => (a, t))) with
    | none => (.error "Invalid arguments for get_price_history", [])
    | some (a, token) =>
        outcomeResult (getPriceHistory c
          ⟨token, a.lookup "startTime", a.lookup "endTime",
            a.lookup "interval", a.lookup "chain",
            a.lookup "specificChain"⟩ world)
  else if name = "execute_trade" then
    match args.bind (fun a =>
        ((a.lookup "fromToken").bind (fun ft =>
          (a.lookup "toToken").bind (fun tt =>
            (a.lookup "amount").map (fun am => (a, ft, tt, am)))))) with
    | none => (.error "Invalid arguments for execute_trade", [])
    | some (a, fromToken, toToken, amount) =>
        -- the handler overwrites the chain fields with the detected
        -- values before invoking the client
        outcomeResult (executeTrade c
          ⟨fromToken, toToken, amount, none, a.lookup "slippageTolerance",
            some (.str (detectChain (jsToString fromToken)).toStr),
            some (.str (detectChain (jsToString toToken)).toStr),
            none, none⟩
          world)
  else if name = "get_quote" then
    match args.bind (fun a =>
        ((a.lookup "fromToken").bind (fun ft =>
          (a.lookup "toToken").bind (fun tt =>
            (a.lookup "amount").map (fun am => (ft, tt, am)))))) with
    | none => (.error "Invalid arguments for get_quote", [])
    | some (fromToken, toToken, amount) =>
        outcomeResult (getQuote c fromToken toToken amount world)
  else if name = "get_competition_status" then
    outcomeResult (getCompetitionStatus c world)
  else if name = "get_leaderboard" then
    outcomeResult (getLeaderboard c none world)
  else
    (.ok ⟨true, "Unknown tool: " ++ name⟩, [])

/-- The full `CallToolRequestSchema` handler: run the `switch` and let
the outer `catch` convert any thrown error into an `isError` envelope
with the `Error: `-prefixed message.  Total: every call produces exactly
one envelope. -/
def handleCallTool (c : TradingSimulatorClient) (world : Option HttpResponse)
    (name : String) (args : Option Args) :
    ResultEnvelope × List RequestEnvelope :=
  match callToolInner c world name args with
  | (.ok env, reqs) => (env, reqs)
  | (.error m, reqs) => (⟨true, "Error: " ++ m⟩, reqs)

/-! ### Concrete values shared by the closed theorems -/

/-- A concrete client configuration used by closed theorems. -/
def witClient : TradingSimulatorClient :=
  (mkClient (some "test-key") "" "http://localhost:3000" false).1

/-- The remote error body exercised by the error-normalization claims. -/
def boomBody : String := "\x7b\"error\":\x7b\"message\":\"boom\"\x7d\x7d"

/-! ### Helper lemmas -/

/-- Lemma: `evmAddressTest` holds exactly on `0x` plus forty hex characters. -/
lemma evmAddressTest_iff (cs : List Char) :
    evmAddressTest cs = true ↔
      ∃ t, cs = '0' :: 'x' :: t ∧ t.length = 40 ∧ ∀ c ∈ t, isHexChar c := by
  rcases cs with _ | ⟨c1, _ | ⟨c2, rest⟩⟩
  · simp [evmAddressTest]
  · simp [evmAddressTest]
  · simp only [evmAddressTest, Bool.and_eq_true, beq_iff_eq, List.all_eq_true,
      List.cons.injEq]
    constructor
    · rintro ⟨⟨⟨h1, h2⟩, h3⟩, h4⟩
      exact ⟨rest, ⟨h1, h2, rfl⟩, h3, h4⟩
    · rintro ⟨t, ⟨h1, h2, h3⟩, h4, h5⟩
      subst h3
      exact ⟨⟨⟨h1, h2⟩, h4⟩, h5⟩

/-- The envelope `request` builds does not depend on the world. -/
lemma request_fst (c : TradingSimulatorClient) (method path : String)
    (body : Option Json) (world : Option HttpResponse) :
    (request c method path body world).1 =
      ⟨jsToUpperCase method, c.baseUrl ++ path, generateHeaders c, body⟩ := by
  rcases world with _ | r
  · rfl
  · by_cases h : statusOk r.status = true
    · rcases hp : jsonParse r.text with _ | j <;> simp [request, h, hp]
    · simp [request, h]

/-- Lemma: `outcomeResult` records exactly the one request that was issued. -/
lemma outcomeResult_reqs (out : RequestEnvelope × Except String Json) :
    (outcomeResult out).2 = [out.1] := by
  rcases out with ⟨req, j | m⟩ <;> rfl

/-- The handler's request list is the inner switch's request list. -/
lemma handleCallTool_reqs (c : TradingSimulatorClient)
    (world : Option HttpResponse) (name : String) (args : Option Args) :
    (handleCallTool c world name args).2 = (callToolInner c world name args).2 := by
  rcases h : callToolInner c world name args with ⟨env | m, reqs⟩ <;>
    simp [handleCallTool, h]

/-! ### C2: `detectChain` classifies by the EVM address pattern -/

/-- C2: the function `detectChain` is a pure total function on strings: it
returns EVM exactly on strings of the form `0x` followed by forty
hexadecimal characters, and SVM on every other string; in particular on
the two example addresses of the specification. -/
theorem detectChain_pattern_characterization (s : String) :
    (detectChain s = .evm ↔
      ∃ t, s.toList = '0' :: 'x' :: t ∧ t.length = 40 ∧ ∀ c ∈ t, isHexChar c) ∧
    (detectChain s = .svm ↔
      ¬∃ t, s.toList = '0' :: 'x' :: t ∧ t.length = 40 ∧ ∀ c ∈ t, isHexChar c) ∧
    detectChain "0xC02aaA39b223FE8D0A0e5C4F27eAD9083C756Cc2" = .evm ∧
    detectChain "So11111111111111111111111111111111111111112" = .svm := by
  have hiff := evmAddressTest_iff s.toList
  refine ⟨?_, ?_, by rfl, by rfl⟩
  · rw [← hiff]
    rcases h : evmAddressTest s.toList with _ | _ <;> simp [detectChain, h] <;>
      exact h
  · rw [← hiff]
    rcases h : evmAddressTest s.toList with _ | _ <;> simp [detectChain, h] <;>
      exact h

/-! ### C8: a success status with an unparseable body is an error -/

/-- C8: when the HTTP status is in the success range but the body
does not parse as JSON, `request` fails with the response-parse error
and never resolves to a success value. -/
theorem request_parse_failure_on_success_status (c : TradingSimulatorClient)
    (method path : String) (body : Option Json) (r : HttpResponse)
    (hok : statusOk r.status = true) (hbad : jsonParse r.text = none) :
    (request c method path body (some r)).2 = .error parseFailureMessage ∧
      ∀ v, (request c method path body (some r)).2 ≠ .ok v := by
  have h : (request c method path body (some r)).2 = .error parseFailureMessage := by
    simp [request, hok, hbad]
  exact ⟨h, fun v hv => by rw [h] at hv; cases hv⟩

/-- Witness for C8: an HTTP 200 response with body `not json`. -/
theorem request_parse_failure_on_success_status_witness :
    statusOk 200 = true ∧ jsonParse "not json" = none ∧
      (request witClient "GET" "/api/account/balances" none
        (some ⟨200, "not json"⟩)).2 = .error parseFailureMessage :=
  ⟨by decide, by rfl,
    (request_parse_failure_on_success_status witClient "GET"
      "/api/account/balances" none ⟨200, "not json"⟩ (by decide) (by rfl)).1⟩

/-! ### C7: construction never fails, even with no credential -/

/-- C7: constructing the client with an empty or absent credential
succeeds (the constructor is total and returns a client), merely
recording the logged warning; endpoint calls still build their request
(with an empty bearer token) and fail only at the HTTP layer. -/
theorem client_constructs_without_credential (apiKey : Option String)
    (configKey baseUrl : String) (debug : Bool)
    (hempty : resolveApiKey apiKey configKey = "") :
    mkClient apiKey configKey baseUrl debug =
      (⟨"", normalizeBaseUrl baseUrl, debug⟩, true) ∧
    ∀ world,
      (getBalances (mkClient apiKey configKey baseUrl debug).1 world).1.headers =
        [("Authorization", "Bearer "), ("Content-Type", "application/json"),
          ("User-Agent", "TradingSimMCP/1.0")] ∧
      (world = none →
        (getBalances (mkClient apiKey configKey baseUrl debug).1 world).2 =
          .error networkErrorMessage) := by
  have hc : mkClient apiKey configKey baseUrl debug =
      (⟨"", normalizeBaseUrl baseUrl, debug⟩, true) := by
    simp [mkClient, hempty]
  refine ⟨hc, fun world => ⟨?_, ?_⟩⟩
  · rw [hc, getBalances, request_fst]
    simp [generateHeaders, String.append_empty]
  · rintro rfl
    rw [hc]
    rfl

/-- Witness for C7: no explicit key and an empty configured key. -/
theorem client_constructs_without_credential_witness :
    resolveApiKey none "" = "" ∧
      mkClient none "" "http://localhost:3000/" false =
        (⟨"", normalizeBaseUrl "http://localhost:3000/", false⟩, true) :=
  ⟨by decide,
    (client_constructs_without_credential none "" "http://localhost:3000/" false
      (by decide)).1⟩

/-- Thrown errors are converted by the outer catch into an error
envelope with the `Error: `-prefixed message and the requests already
issued. -/
lemma handleCallTool_of_inner_error (c : TradingSimulatorClient)
    (world : Option HttpResponse) (name : String) (args : Option Args)
    (m : String) (reqs : List RequestEnvelope)
    (h : callToolInner c world name args = (.error m, reqs)) :
    handleCallTool c world name args = (⟨true, "Error: " ++ m⟩, reqs) := by
  simp [handleCallTool, h]

/-! ### C1: one envelope per call; unknown tools never crash -/

/-- C1: the call-tool handler is a total function producing exactly
one `ResultEnvelope` for every tool name and argument bag: a name
outside the catalog yields an error envelope naming the unknown tool
(and no HTTP request), and every error thrown inside the switch —
validation or client failure — is caught and converted into an
`isError` envelope rather than escaping. -/
theorem call_tool_unknown_and_catch (c : TradingSimulatorClient)
    (world : Option HttpResponse) (name : String) (args : Option Args) :
    (name ∉ toolNames →
      handleCallTool c world name args =
        (⟨true, "Unknown tool: " ++ name⟩, [])) ∧
    ∀ m reqs, callToolInner c world name args = (.error m, reqs) →
      handleCallTool c world name args = (⟨true, "Error: " ++ m⟩, reqs) := by
  constructor
  · intro h
    simp only [toolNames, TRADING_SIM_TOOLS, List.map_cons, List.map_nil,
      List.mem_cons, List.not_mem_nil, or_false, not_or] at h
    obtain ⟨h1, h2, h3, h4, h5, h6, h7, h8, h9, h10⟩ := h
    simp [handleCallTool, callToolInner, h1, h2, h3, h4, h5, h6, h7, h8, h9, h10]
  · exact fun m reqs h => handleCallTool_of_inner_error c world name args m reqs h

/-- Witness for C1: a name outside the catalog. -/
theorem call_tool_unknown_and_catch_witness :
    "frobnicate" ∉ toolNames ∧
      handleCallTool witClient (some ⟨200, "\x7b\x7d"⟩) "frobnicate" none =
        (⟨true, "Unknown tool: " ++ "frobnicate"⟩, []) :=
  ⟨by decide,
    (call_tool_unknown_and_catch witClient (some ⟨200, "\x7b\x7d"⟩) "frobnicate"
      none).1 (by decide)⟩

/-! ### C3: remote error-message extraction and its envelope -/

/-- On any non-success status, the message extracted from the `boom`
error body is exactly `boom`. -/
lemma requestErrorMessage_boom (status : Nat) :
    requestErrorMessage status boomBody = "boom" := by rfl

/-- Any request receiving a non-success status with the `boom` error
body rejects with message exactly `boom`. -/
lemma request_error_boom (c : TradingSimulatorClient) (method path : String)
    (body : Option Json) (status : Nat) (hstatus : statusOk status = false) :
    (request c method path body (some ⟨status, boomBody⟩)).2 = .error "boom" := by
  simp [request, hstatus, requestErrorMessage_boom]

/-- Lemma: `outcomeResult` of a rejected call rethrows the message. -/
lemma outcomeResult_of_error (out : RequestEnvelope × Except String Json)
    (m : String) (h : out.2 = .error m) :
    outcomeResult out = (.error m, [out.1]) := by
  rcases out with ⟨req, o⟩
  simp only at h
  simp [outcomeResult, h]

/-- A branch of the switch that invoked a client call rejecting with
`boom` produces the `Error: boom` envelope. -/
lemma handle_fst_of_boom_outcome (c : TradingSimulatorClient)
    (world : Option HttpResponse) (name : String) (args : Option Args)
    (out : RequestEnvelope × Except String Json)
    (hinner : callToolInner c world name args = outcomeResult out)
    (herr : out.2 = .error "boom") :
    (handleCallTool c world name args).1 = ⟨true, "Error: boom"⟩ := by
  rw [handleCallTool_of_inner_error _ _ _ _ _ _
    (hinner.trans (outcomeResult_of_error _ _ herr))]
  rfl

/-- C3, counterexample: the claim states the dispatcher's envelope
text is exactly `boom`; it is `Error: boom` (the outer catch prefixes
the message), as the `get_balances` call against a simulated HTTP 500
with the `boom` error body shows. -/
theorem error_envelope_text_counterexample :
    (handleCallTool witClient (some ⟨500, boomBody⟩) "get_balances" none).1 =
      ⟨true, "Error: boom"⟩ ∧
    ("Error: boom" : String) ≠ "boom" := by
  constructor
  · decide
  · decide

/-- C3, amended: for every endpoint, a non-success HTTP response
with body `{"error":{"message":"boom"}}` makes the client reject with
message exactly `boom` (extraction order: nested `error.message` first,
then top-level `message`, and the raw body text when the body is not
JSON), and the dispatcher converts the rejection of any tool call that
issued a request into `{isError: true, text: "Error: boom"}` — the
message prefixed with `Error: `, not the bare `boom`. -/
theorem error_message_extraction_and_envelope (c : TradingSimulatorClient)
    (method path : String) (body : Option Json) (status : Nat)
    (hstatus : statusOk status = false) :
    (request c method path body (some ⟨status, boomBody⟩)).2 = .error "boom" ∧
    (∀ name args,
      (handleCallTool c (some ⟨status, boomBody⟩) name args).2 ≠ [] →
      (handleCallTool c (some ⟨status, boomBody⟩) name args).1 =
        ⟨true, "Error: boom"⟩) ∧
    requestErrorMessage status
      "\x7b\"error\":\x7b\"message\":\"inner\"\x7d,\"message\":\"outer\"\x7d" = "inner" ∧
    requestErrorMessage status "\x7b\"message\":\"outer\"\x7d" = "outer" ∧
    requestErrorMessage status "plain text" = "plain text" := by
  refine ⟨request_error_boom c method path body status hstatus, ?_, by rfl,
    by rfl, by rfl⟩
  intro name args hne
  rw [handleCallTool_reqs] at hne
  by_cases n1 : name = "get_balances"
  · subst n1
    exact handle_fst_of_boom_outcome _ _ _ _ _ rfl
      (request_error_boom c "GET" "/api/account/balances" none status hstatus)
  by_cases n2 : name = "get_portfolio"
  · subst n2
    exact handle_fst_of_boom_outcome _ _ _ _ _ rfl
      (request_error_boom c "GET" "/api/account/portfolio" none status hstatus)
  by_cases n3 : name = "get_trades"
  · subst n3
    rcases args with _ | a
    · exact absurd rfl hne
    · exact handle_fst_of_boom_outcome _ _ _ _ _ rfl
        (request_error_boom c "GET" _ none status hstatus)
  by_cases n4 : name = "get_price"
  · subst n4
    rcases args with _ | a
    · exact absurd rfl hne
    rcases hl : a.lookup "token" with _ | tok
    · have hval : callToolInner c (some ⟨status, boomBody⟩) "get_price"
          (some a) = (.error "Invalid arguments for get_price", []) := by
        simp [callToolInner, hl]
      rw [hval] at hne
      exact absurd rfl hne
    · have hinner : callToolInner c (some ⟨status, boomBody⟩) "get_price"
          (some a) = outcomeResult (getPrice c tok (a.lookup "chain")
            (a.lookup "specificChain") (some ⟨status, boomBody⟩)) := by
        simp [callToolInner, hl]
      exact handle_fst_of_boom_outcome _ _ _ _ _ hinner
        (request_error_boom c "GET" _ none status hstatus)
  by_cases n5 : name = "get_token_info"
  · subst n5
    rcases args with _ | a
    · exact absurd rfl hne
    rcases hl : a.lookup "token" with _ | tok
    · have hval : callToolInner c (some ⟨status, boomBody⟩) "get_token_info"
          (some a) = (.error "Invalid arguments for get_token_info", []) := by
        simp [callToolInner, hl]
      rw [hval] at hne
      exact absurd rfl hne
    · have hinner : callToolInner c (some ⟨status, boomBody⟩) "get_token_info"
          (some a) = outcomeResult (getTokenInfo c tok (a.lookup "chain")
            (a.lookup "specificChain") (some ⟨status, boomBody⟩)) := by
        simp [callToolInner, hl]
      exact handle_fst_of_boom_outcome _ _ _ _ _ hinner
        (request_error_boom c "GET" _ none status hstatus)
  by_cases n6 : name = "get_price_history"
  · subst n6
    rcases args with _ | a
    · exact absurd rfl hne
    rcases hl : a.lookup "token" with _ | tok
    · have hval : callToolInner c (some ⟨status, boomBody⟩) "get_price_history"
          (some a) = (.error "Invalid arguments for get_price_history", []) := by
        simp [callToolInner, hl]
      rw [hval] at hne
      exact absurd rfl hne
    · have hinner : callToolInner c (some ⟨status, boomBody⟩) "get_price_history"
          (some a) = outcomeResult (getPriceHistory c
            ⟨tok, a.lookup "startTime", a.lookup "endTime",
              a.lookup "interval", a.lookup "chain",
              a.lookup "specificChain"⟩ (some ⟨status, boomBody⟩)) := by
        simp [callToolInner, hl]
      exact handle_fst_of_boom_outcome _ _ _ _ _ hinner
        (request_error_boom c "GET" _ none status hstatus)
  by_cases n7 : name = "execute_trade"
  · subst n7
    rcases args with _ | a
    · exact absurd rfl hne
    rcases hf : a.lookup "fromToken" with _ | ft
    · have hval : callToolInner c (some ⟨status, boomBody⟩) "execute_trade"
          (some a) = (.error "Invalid arguments for execute_trade", []) := by
        simp [callToolInner, hf]
      rw [hval] at hne
      exact absurd rfl hne
    rcases ht : a.lookup "toToken" with _ | tt
    · have hval : callToolInner c (some ⟨status, boomBody⟩) "execute_trade"
          (some a) = (.error "Invalid arguments for execute_trade", []) := by
        simp [callToolInner, hf, ht]
      rw [hval] at hne
      exact absurd rfl hne
    rcases ha : a.lookup "amount" with _ | am
    · have hval : callToolInner c (some ⟨status, boomBody⟩) "execute_trade"
          (some a) = (.error "Invalid arguments for execute_trade", []) := by
        simp [callToolInner, hf, ht, ha]
      rw [hval] at hne
      exact absurd rfl hne
    · have hinner : callToolInner c (some ⟨status, boomBody⟩) "execute_trade"
          (some a) = outcomeResult (executeTrade c
            ⟨ft, tt, am, none, a.lookup "slippageTolerance",
              some (.str (detectChain (jsToString ft)).toStr),
              some (.str (detectChain (jsToString tt)).toStr),
              none, none⟩ (some ⟨status, boomBody⟩)) := by
        simp [callToolInner, hf, ht, ha]
      exact handle_fst_of_boom_outcome _ _ _ _ _ hinner
        (request_error_boom c "POST" _ _ status hstatus)
  by_cases n8 : name = "get_quote"
  · subst n8
    rcases args with _ | a
    · exact absurd rfl hne
    rcases hf : a.lookup "fromToken" with _ | ft
    · have hval : callToolInner c (some ⟨status, boomBody⟩) "get_quote"
          (some a) = (.error "Invalid arguments for get_quote", []) := by
        simp [callToolInner, hf]
      rw [hval] at hne
      exact absurd rfl hne
    rcases ht : a.lookup "toToken" with _ | tt
    · have hval : callToolInner c (some ⟨status, boomBody⟩) "get_quote"
          (some a) = (.error "Invalid arguments for get_quote", []) := by
        simp [callToolInner, hf, ht]
      rw [hval] at hne
      exact absurd rfl hne
    rcases ha : a.lookup "amount" with _ | am
    · have hval : callToolInner c (some ⟨status, boomBody⟩) "get_quote"
          (some a) = (.error "Invalid arguments for get_quote", []) := by
        simp [callToolInner, hf, ht, ha]
      rw [hval] at hne
      exact absurd rfl hne
    · have hinner : callToolInner c (some ⟨status, boomBody⟩) "get_quote"
          (some a) = outcomeResult (getQuote c ft tt am
            (some ⟨status, boomBody⟩)) := by
        simp [callToolInner, hf, ht, ha]
      exact handle_fst_of_boom_outcome _ _ _ _ _ hinner
        (request_error_boom c "GET" _ none status hstatus)
  by_cases n9 : name = "get_competition_status"
  · subst n9
    exact handle_fst_of_boom_outcome _ _ _ _ _ rfl
      (request_error_boom c "GET" "/api/competition/status" none status hstatus)
  by_cases n10 : name = "get_leaderboard"
  · subst n10
    exact handle_fst_of_boom_outcome _ _ _ _ _ rfl
      (request_error_boom c "GET" _ none status hstatus)
  · have hunk : callToolInner c (some ⟨status, boomBody⟩) name args =
        (.ok ⟨true, "Unknown tool: " ++ name⟩, []) := by
      simp [callToolInner, n1, n2, n3, n4, n5, n6, n7, n8, n9, n10]
    rw [hunk] at hne
    exact absurd rfl hne

/-- Witness for C3 (amended): status 500 with the `boom` body. -/
theorem error_message_extraction_and_envelope_witness :
    statusOk 500 = false ∧
      (request witClient "GET" "/api/account/balances" none
        (some ⟨500, boomBody⟩)).2 = .error "boom" :=
  ⟨by decide,
    (error_message_extraction_and_envelope witClient "GET"
      "/api/account/balances" none 500 (by decide)).1⟩

/-! ### C5: the competition tools actually in the catalog -/

/-- C5, counterexample: the catalog holds no `get_competition_rules`
tool, and a `get_leaderboard` call carrying a `competitionId` argument
still requests the plain leaderboard path — the id is not forwarded. -/
theorem competition_rules_missing_counterexample :
    "get_competition_rules" ∉ toolNames ∧
      ((handleCallTool witClient (some ⟨200, "\x7b\x7d"⟩) "get_leaderboard"
        (some [("competitionId", Json.str "comp-123")])).2.map
          (fun r => r.url)) =
        ["http://localhost:3000/api/competition/leaderboard"] :=
  ⟨by decide, by rfl⟩

/-- C5, amended: the catalog contains `get_competition_status` and
`get_leaderboard` but no `get_competition_rules` tool; the
`get_leaderboard` schema declares no properties, and the dispatcher
always invokes the client's leaderboard method without a competition id
(even though the client method itself forwards a supplied id as a
`competitionId` query parameter). -/
theorem competition_catalog_and_leaderboard_forwarding
    (c : TradingSimulatorClient) (world : Option HttpResponse)
    (args : Option Args) :
    "get_competition_status" ∈ toolNames ∧
    "get_leaderboard" ∈ toolNames ∧
    "get_competition_rules" ∉ toolNames ∧
    (∃ d ∈ TRADING_SIM_TOOLS, d.name = "get_leaderboard" ∧
      d.properties = []) ∧
    (handleCallTool c world "get_leaderboard" args).2 =
      [(getLeaderboard c none world).1] ∧
    (∀ cid : String, cid ≠ "" →
      getLeaderboardPath (some cid) =
        "/api/competition/leaderboard?competitionId=" ++ cid) := by
  refine ⟨by decide, by decide, by decide, by decide, ?_, ?_⟩
  · rw [handleCallTool_reqs]
    show (outcomeResult (getLeaderboard c none world)).2 = _
    exact outcomeResult_reqs _
  · intro cid h
    simp [getLeaderboardPath, strTruthy, h]

/-- Witness for C5 (amended): a nonempty competition id is forwarded by
the client's path builder. -/
theorem competition_catalog_and_leaderboard_forwarding_witness :
    ("comp-123" : String) ≠ "" ∧
      getLeaderboardPath (some "comp-123") =
        "/api/competition/leaderboard?competitionId=" ++ "comp-123" :=
  ⟨by decide,
    (competition_catalog_and_leaderboard_forwarding witClient none
      none).2.2.2.2.2 "comp-123" (by decide)⟩

/-! ### C6: enum-constrained fields are not validated -/

/-- C6, counterexample: a `get_trades` call whose `chain` value
`foo` lies outside the schema's enum is not rejected: the dispatcher
forwards it into the query string, issues the HTTP request, and returns
a success envelope. -/
theorem enum_value_forwarded_counterexample :
    "foo" ∉ chainEnum ∧
    (handleCallTool witClient (some ⟨200, "\x7b\x7d"⟩) "get_trades"
      (some [("chain", Json.str "foo")])).1.isError = false ∧
    ((handleCallTool witClient (some ⟨200, "\x7b\x7d"⟩) "get_trades"
      (some [("chain", Json.str "foo")])).2.map (fun r => r.url)) =
      ["http://localhost:3000/api/account/trades?chain=foo"] :=
  ⟨by decide, by rfl, by rfl⟩

/-- C6, amended: the dispatcher performs no enum validation: any
truthy `chain` value is forwarded verbatim into the trade-history query
string and the HTTP request is issued; the only argument check performed
is required-field presence, which does short-circuit into an error
envelope with no request (shown for `get_price` without `token`). -/
theorem dispatcher_skips_enum_validation (c : TradingSimulatorClient)
    (world : Option HttpResponse) (v : Json) (hv : jsTruthy v = true) :
    (handleCallTool c world "get_trades" (some [("chain", v)])).2 =
      [(getTrades c (some ⟨none, none, none, some v⟩) world).1] ∧
    getTradesQueryPairs ⟨none, none, none, some v⟩ =
      [("chain", jsToString v)] ∧
    (∀ a : Args, a.lookup "token" = none →
      handleCallTool c world "get_price" (some a) =
        (⟨true, "Error: Invalid arguments for get_price"⟩, [])) := by
  refine ⟨?_, ?_, ?_⟩
  · rw [handleCallTool_reqs]
    show (outcomeResult (getTrades c (some ⟨none, none, none, some v⟩)
      world)).2 = _
    exact outcomeResult_reqs _
  · simp [getTradesQueryPairs, jsTruthyOpt, hv]
  · intro a h
    have hval : callToolInner c world "get_price" (some a) =
        (.error "Invalid arguments for get_price", []) := by
      simp [callToolInner, h]
    simp [handleCallTool, hval]

/-- Witness for C6 (amended): the out-of-enum value `foo` is truthy and
lands in the query pairs. -/
theorem dispatcher_skips_enum_validation_witness :
    jsTruthy (Json.str "foo") = true ∧
      getTradesQueryPairs ⟨none, none, none, some (Json.str "foo")⟩ =
        [("chain", jsToString (Json.str "foo"))] :=
  ⟨by decide,
    (dispatcher_skips_enum_validation witClient none (Json.str "foo")
      (by decide)).2.1⟩

/-! ### C9: which optional trade-history parameters reach the query -/

/-- C9, counterexample: a supplied-but-falsy parameter is dropped:
`offset = 0` is supplied in the options yet no `offset` key appears in
the query string (the claim requires every supplied parameter to
appear). -/
theorem supplied_falsy_param_omitted_counterexample :
    getTradesQueryPairs ⟨none, some (Json.num 0), none, none⟩ = [] ∧
    "offset" ∉ (getTradesQueryPairs ⟨none, some (Json.num 0), none,
      none⟩).map Prod.fst ∧
    getTradesPath (some ⟨none, some (Json.num 0), none, none⟩) =
      "/api/account/trades?" :=
  ⟨by rfl, by decide, by rfl⟩

/-- C9, amended: the trade-history query string contains exactly
the optional parameters whose supplied values are truthy (absent
parameters and falsy supplied values such as `0` or the empty string
are omitted entirely, never sent as empty values), drawn from `limit`,
`offset`, `token`, `chain`; with no options object at all there is no
query string. -/
theorem trades_query_truthy_characterization (o : TradeHistoryParams) :
    ("limit" ∈ (getTradesQueryPairs o).map Prod.fst ↔
      jsTruthyOpt o.limit = true) ∧
    ("offset" ∈ (getTradesQueryPairs o).map Prod.fst ↔
      jsTruthyOpt o.offset = true) ∧
    ("token" ∈ (getTradesQueryPairs o).map Prod.fst ↔
      jsTruthyOpt o.token = true) ∧
    ("chain" ∈ (getTradesQueryPairs o).map Prod.fst ↔
      jsTruthyOpt o.chain = true) ∧
    (∀ k, k ∈ (getTradesQueryPairs o).map Prod.fst →
      k = "limit" ∨ k = "offset" ∨ k = "token" ∨ k = "chain") ∧
    getTradesPath none = "/api/account/trades" := by
  rcases o with ⟨l, os, tk, ch⟩
  cases h1 : jsTruthyOpt l <;> cases h2 : jsTruthyOpt os <;>
    cases h3 : jsTruthyOpt tk <;> cases h4 : jsTruthyOpt ch <;>
    simp [getTradesQueryPairs, getTradesPath, h1, h2, h3, h4]

/-- Witness for C9 (amended): a truthy `chain` value appears and is one
of the four parameter keys. -/
theorem trades_query_truthy_characterization_witness :
    ("chain" ∈ (getTradesQueryPairs ⟨none, none, none,
        some (Json.str "evm")⟩).map Prod.fst) ∧
      ("chain" = "limit" ∨ "chain" = "offset" ∨ "chain" = "token" ∨
        "chain" = "chain") :=
  ⟨by decide,
    (trades_query_truthy_characterization
      ⟨none, none, none, some (Json.str "evm")⟩).2.2.2.2.1 "chain"
      (by decide)⟩

/-! ### C4: chain resolution order inside `executeTrade` -/

/-- Looking a key up after `setKey` on that key yields the new value. -/
lemma lookup_setKey_self (kvs : List (String × Json)) (k : String) (v : Json) :
    (setKey kvs k v).lookup k = some v := by
  induction kvs with
  | nil => simp [setKey, List.lookup]
  | cons kv rest ih =>
      rcases kv with ⟨k', v'⟩
      by_cases h : k' = k
      · subst h
        simp [setKey, List.lookup]
      · have hb : (k == k') = false := by
          rw [beq_eq_false_iff_ne]
          exact fun hh => h hh.symm
        simp [setKey, h, List.lookup, hb, ih]

/-- Lemma: `setKey` on a different key leaves a lookup unchanged. -/
lemma lookup_setKey_ne (kvs : List (String × Json)) (k k' : String) (v : Json)
    (h : k' ≠ k) : (setKey kvs k v).lookup k' = kvs.lookup k' := by
  have hb : (k' == k) = false := beq_eq_false_iff_ne.mpr h
  induction kvs with
  | nil => simp [setKey, List.lookup, hb]
  | cons kv rest ih =>
      rcases kv with ⟨k'', v''⟩
      by_cases h2 : k'' = k
      · subst h2
        simp [setKey, List.lookup, hb]
      · cases hb2 : k' == k'' <;> simp [setKey, h2, List.lookup, hb2, ih]

/-- The `fromChain` field of the payload `executeTrade` builds: the
caller's truthy value, else the `detectChain` of the source token. -/
lemma executeTradePayload_fromChain (params : TradeParams) :
    jsGet (executeTradePayload params) "fromChain" =
      some (if jsTruthyOpt params.fromChain then params.fromChain.getD .null
        else .str (detectChain (jsToString params.fromToken)).toStr) := by
  rcases params with ⟨ft, tt, am, pr, sl, fc, tc, fs, ts⟩
  cases h1 : jsTruthyOpt sl <;> cases h2 : jsTruthyOpt fc <;>
    cases h3 : jsTruthyOpt tc <;> cases h4 : jsTruthyOpt fs <;>
    cases h5 : jsTruthyOpt ts <;>
    simp [executeTradePayload, jsGet, setKey, List.lookup, h1, h2, h3, h4, h5]

/-- The `toChain` field of the payload `executeTrade` builds: the
caller's truthy value, else the `detectChain` of the destination token. -/
lemma executeTradePayload_toChain (params : TradeParams) :
    jsGet (executeTradePayload params) "toChain" =
      some (if jsTruthyOpt params.toChain then params.toChain.getD .null
        else .str (detectChain (jsToString params.toToken)).toStr) := by
  rcases params with ⟨ft, tt, am, pr, sl, fc, tc, fs, ts⟩
  cases h1 : jsTruthyOpt sl <;> cases h2 : jsTruthyOpt fc <;>
    cases h3 : jsTruthyOpt tc <;> cases h4 : jsTruthyOpt fs <;>
    cases h5 : jsTruthyOpt ts <;>
    simp [executeTradePayload, jsGet, setKey, List.lookup, h1, h2, h3, h4, h5]

/-- The chain-resolution order claim C4 asserts, following the spec's
words: explicit caller value first, then the known-token table, then
pattern-based `detectChain`.  Stated for comparison against the code's
actual resolution. -/
def claimedChainResolution (explicit : Option Json) (token : String) : Json :=
  if jsTruthyOpt explicit then explicit.getD .null
  else
    match findTokenChainInfo token with
    | some info => .str info.1.toStr
    | none => .str (detectChain token).toStr

/-- An address whose lower-cased form is the WETH entry of the
known-token table but which does not match the case-sensitive
`0x`-prefix pattern. -/
def wethUpper : String := "0XC02AAA39B223FE8D0A0E5C4F27EAD9083C756CC2"

/-- A Solana address from the known-token table. -/
def solAddress : String := "So11111111111111111111111111111111111111112"

/-- C4, counterexample: the method `executeTrade` does not consult the
known-token table: for the upper-cased WETH address the table (matched
case-insensitively) yields EVM, so the claimed lookup-then-detect order
would put `fromChain = "evm"` in the payload; the code calls only
`detectChain`, which fails the case-sensitive `0x` pattern and yields
`fromChain = "svm"`. -/
theorem chain_resolution_table_not_consulted_counterexample :
    findTokenChainInfo wethUpper = some (.evm, "ETH") ∧
    claimedChainResolution none wethUpper = .str "evm" ∧
    jsGet (executeTradePayload ⟨.str wethUpper, .str solAddress, .str "1",
      none, none, none, none, none, none⟩) "fromChain" =
        some (.str "svm") ∧
    Json.str "svm" ≠ Json.str "evm" := by
  refine ⟨by rfl, by rfl, by rfl, ?_⟩
  intro h
  rw [Json.str.injEq] at h
  exact absurd h (by decide)

/-- C4, amended: for every `executeTrade` invocation the payload's
chain fields follow the order: explicit caller value first, else
pattern-based `detectChain` of the corresponding token — the known-token
table (`findTokenChainInfo`) plays no part in the resolution. -/
theorem executeTrade_resolution_explicit_then_detect (params : TradeParams) :
    jsGet (executeTradePayload params) "fromChain" =
      some (if jsTruthyOpt params.fromChain then params.fromChain.getD .null
        else .str (detectChain (jsToString params.fromToken)).toStr) ∧
    jsGet (executeTradePayload params) "toChain" =
      some (if jsTruthyOpt params.toChain then params.toChain.getD .null
        else .str (detectChain (jsToString params.toToken)).toStr) :=
  ⟨executeTradePayload_fromChain params, executeTradePayload_toChain params⟩

/-! ### C10: the dispatcher always overwrites the chain fields -/

/-- The enum strings of `BlockchainType` are truthy. -/
lemma blockchainType_str_truthy (b : BlockchainType) :
    jsTruthy (.str b.toStr) = true := by
  cases b <;> decide

/-- C10: every `execute_trade` tool call that passes validation
reaches the client with `fromChain` and `toChain` unconditionally set to
the `detectChain` of the two token values — the outbound POST body
always carries the pattern-detected chains, and no entry of the argument
bag (such as a `fromChain` key) can override them. -/
theorem execute_trade_overrides_chains (c : TradingSimulatorClient)
    (world : Option HttpResponse) (a : Args) (ft tt am : Json)
    (hf : a.lookup "fromToken" = some ft) (ht : a.lookup "toToken" = some tt)
    (ha : a.lookup "amount" = some am) :
    ∃ req, (handleCallTool c world "execute_trade" (some a)).2 = [req] ∧
      req.method = "POST" ∧ req.url = c.baseUrl ++ "/api/trade/execute" ∧
      ∃ payload, req.body = some payload ∧
        jsGet payload "fromChain" =
          some (.str (detectChain (jsToString ft)).toStr) ∧
        jsGet payload "toChain" =
          some (.str (detectChain (jsToString tt)).toStr) := by
  have hinner : callToolInner c world "execute_trade" (some a) =
      outcomeResult (executeTrade c
        ⟨ft, tt, am, none, a.lookup "slippageTolerance",
          some (.str (detectChain (jsToString ft)).toStr),
          some (.str (detectChain (jsToString tt)).toStr),
          none, none⟩ world) := by
    simp [callToolInner, hf, ht, ha]
  refine ⟨(executeTrade c
      ⟨ft, tt, am, none, a.lookup "slippageTolerance",
        some (.str (detectChain (jsToString ft)).toStr),
        some (.str (detectChain (jsToString tt)).toStr),
        none, none⟩ world).1, ?_, ?_, ?_, ?_⟩
  · rw [handleCallTool_reqs, hinner, outcomeResult_reqs]
  · rw [executeTrade, request_fst]
    rfl
  · rw [executeTrade, request_fst]
  · refine ⟨executeTradePayload
      ⟨ft, tt, am, none, a.lookup "slippageTolerance",
        some (.str (detectChain (jsToString ft)).toStr),
        some (.str (detectChain (jsToString tt)).toStr),
        none, none⟩, ?_, ?_, ?_⟩
    · rw [executeTrade, request_fst]
    · rw [executeTradePayload_fromChain]
      simp [jsTruthyOpt, blockchainType_str_truthy]
    · rw [executeTradePayload_toChain]
      simp [jsTruthyOpt, blockchainType_str_truthy]

/-- An argument bag for `execute_trade` that also carries (ignored)
`fromChain`/`toChain` entries contradicting the detected chains. -/
def execTradeBag : Args :=
  [("fromToken", .str "0xC02aaA39b223FE8D0A0e5C4F27eAD9083C756Cc2"),
   ("toToken", .str solAddress),
   ("amount", .str "1.5"),
   ("fromChain", .str "svm"), ("toChain", .str "evm")]

/-- Witness for C10: the decoy chain entries in the bag do not override
the detected chains. -/
theorem execute_trade_overrides_chains_witness :
    ∃ req, (handleCallTool witClient (some ⟨200, "\x7b\x7d"⟩) "execute_trade"
        (some execTradeBag)).2 = [req] ∧
      req.method = "POST" ∧
      req.url = witClient.baseUrl ++ "/api/trade/execute" ∧
      ∃ payload, req.body = some payload ∧
        jsGet payload "fromChain" = some (.str (detectChain (jsToString
          (.str "0xC02aaA39b223FE8D0A0e5C4F27eAD9083C756Cc2"))).toStr) ∧
        jsGet payload "toChain" =
          some (.str (detectChain (jsToString (.str solAddress))).toStr) :=
  execute_trade_overrides_chains witClient (some ⟨200, "\x7b\x7d"⟩) execTradeBag
    (.str "0xC02aaA39b223FE8D0A0e5C4F27eAD9083C756Cc2") (.str solAddress)
    (.str "1.5") (by rfl) (by rfl) (by rfl)

end TradingSim
